import Mathlib

/-!
Verification of the rynko-dev/sdk-node core: the HTTP retry engine
(`src/utils/http.ts`) and the webhook signature verifier
(`src/utils/webhooks.ts`), shallowly embedded in Lean.

JS strings are modelled as `List Char`.  Host primitives that the SDK calls
but does not implement (HMAC-SHA256, `JSON.parse`, `Date` parsing,
`Math.random`, the network) are passed in as explicit parameters, so every
theorem quantifies over their behaviour.
-/

deriving instance DecidableEq for Except

namespace Rynko

/-! ## JS primitives used by the source -/

/-- Whitespace as skipped by JS `parseInt` before reading digits. -/
def isJsWhitespace (c : Char) : Bool :=
  c = ' ' ∨ c = '\t' ∨ c = '\n' ∨ c = '\r'

/-- Decimal digit value of a character, `none` for non-digits. -/
def digitVal? (c : Char) : Option Nat :=
  if '0' ≤ c ∧ c ≤ '9' then some (c.toNat - '0'.toNat) else none

/-- Accumulate the longest run of leading decimal digits (JS `parseInt`
stops at the first non-digit and keeps the prefix value). -/
def digitsLoop (acc : Nat) : List Char → Nat
  | [] => acc
  | c :: cs =>
    match digitVal? c with
    | some d => digitsLoop (acc * 10 + d) cs
    | none => acc

/-- Parse a non-empty digit prefix; `none` when the first character is not
a digit (JS `parseInt` yields `NaN` then). -/
def jsParseIntCore : List Char → Option Nat
  | [] => none
  | c :: cs =>
    match digitVal? c with
    | some d => some (digitsLoop d cs)
    | none => none

/-- Model of JS `parseInt(s, 10)`: skip leading whitespace, optional sign,
then the longest decimal-digit prefix; `none` models `NaN`. -/
def jsParseIntL (cs : List Char) : Option Int :=
  match cs.dropWhile isJsWhitespace with
  | [] => none
  | c :: rest =>
    if c = '-' then (jsParseIntCore rest).map (fun n => -(n : Int))
    else if c = '+' then (jsParseIntCore rest).map (fun n => (n : Int))
    else (jsParseIntCore (c :: rest)).map (fun n => (n : Int))

/-- Model of JS `String.prototype.split` with a single-character separator:
never drops empty chunks, and splitting the empty string yields `[""]`. -/
def splitOnChar (sep : Char) : List Char → List (List Char)
  | [] => [[]]
  | c :: cs =>
    if c = sep then [] :: splitOnChar sep cs
    else
      match splitOnChar sep cs with
      | [] => [[c]]
      | h :: t => (c :: h) :: t

/-- Little-endian decimal digits of a natural number, with explicit fuel so
that the kernel can evaluate it (the fuel is always sufficient because a
number needs at most `n` digits). -/
def natToRevDigitsGo : Nat → Nat → List Char
  | 0, n => [Nat.digitChar n]
  | fuel + 1, n =>
    if n < 10 then [Nat.digitChar n]
    else Nat.digitChar (n % 10) :: natToRevDigitsGo fuel (n / 10)

/-- Little-endian decimal digits of a natural number. -/
def natToRevDigits (n : Nat) : List Char := natToRevDigitsGo n n

/-- Decimal rendering of a natural number (JS number-to-string on naturals). -/
def natToChars (n : Nat) : List Char := (natToRevDigits n).reverse

/-- Model of JS template-string rendering `${i}` of an integer. -/
def jsIntToChars (i : Int) : List Char :=
  if i < 0 then '-' :: natToChars (-i).toNat else natToChars i.toNat

/-- JS `value || fallback` on an optional string (both `undefined` and the
empty string are falsy). -/
def jsOrStr (v : Option (List Char)) (fallback : List Char) : List Char :=
  match v with
  | some s => if s = [] then fallback else s
  | none => fallback

/-! ## Signature Verifier (`src/utils/webhooks.ts`) -/

/-- Result of `parseSignatureHeader`. -/
structure ParsedSig where
  timestamp : Int
  signature : List Char
deriving DecidableEq, Repr

/-- `const [key, value] = part.split('=')`: the key of a header part. -/
def keyOf (part : List Char) : List Char := (splitOnChar '=' part).headD []

/-- `const [key, value] = part.split('=')`: the value of a header part,
`none` when the part has no `=` (JS `undefined`). -/
def valueOf (part : List Char) : Option (List Char) := (splitOnChar '=' part).get? 1

/-- One iteration of the `for (const part of parts)` loop in
`parseSignatureHeader`: a `t` key stores `parseInt(value, 10)` (with `none`
standing for both an absent field and a stored `NaN`, which the final
truthiness check treats identically), a `v1` key stores the raw value. -/
def updateParsed (acc : Option Int × Option (List Char)) (part : List Char) :
    Option Int × Option (List Char) :=
  if keyOf part = ['t'] then ((valueOf part).bind jsParseIntL, acc.2)
  else if keyOf part = ['v', '1'] then (acc.1, valueOf part)
  else acc

/-- `parseSignatureHeader`: split the header on `,`, fold the parts, and
reject unless both stored fields are truthy (`!parsed.timestamp` is true
for `undefined`, `NaN` and `0`; `!parsed.signature` for `undefined` and
the empty string). -/
def parseSignatureHeader (header : List Char) : Except (List Char) ParsedSig :=
  let parts := splitOnChar ',' header
  let parsed := parts.foldl updateParsed (none, none)
  match parsed with
  | (some t, some s) =>
    if t ≠ 0 ∧ s ≠ [] then .ok ⟨t, s⟩
    else .error ("Invalid signature header format".toList)
  | _ => .error ("Invalid signature header format".toList)

/-- `computeSignature`: HMAC-SHA256 of `` `${timestamp}.${payload}` `` under
`secret`, hex-encoded.  The HMAC itself is a host primitive, passed in as
`hmac secret message`. -/
def computeSignature (hmac : List Char → List Char → List Char)
    (timestamp : Int) (payload secret : List Char) : List Char :=
  hmac secret (jsIntToChars timestamp ++ '.' :: payload)

/-- Hex value of a character, `none` for non-hex. -/
def hexVal? (c : Char) : Option Nat :=
  if '0' ≤ c ∧ c ≤ '9' then some (c.toNat - '0'.toNat)
  else if 'a' ≤ c ∧ c ≤ 'f' then some (c.toNat - 'a'.toNat + 10)
  else if 'A' ≤ c ∧ c ≤ 'F' then some (c.toNat - 'A'.toNat + 10)
  else none

/-- Model of Node `Buffer.from(s, 'hex')`: decode hex pairs until the first
invalid pair; an odd trailing character is dropped. -/
def hexToBytes : List Char → List Nat
  | c1 :: c2 :: rest =>
    match hexVal? c1, hexVal? c2 with
    | some hi, some lo => (hi * 16 + lo) :: hexToBytes rest
    | _, _ => []
  | _ => []

/-- Model of Node `crypto.timingSafeEqual`: defined only on buffers of equal
length, raising a `RangeError` (the `.error` case) otherwise. -/
def timingSafeEqual (a b : List Nat) : Except Unit Bool :=
  if a.length = b.length then .ok (decide (a = b)) else .error ()

/-- Failure modes of `verifyWebhookSignature`: a thrown
`WebhookSignatureError` carrying its message, or a `RangeError` escaping
from `timingSafeEqual` (shown later to be impossible). -/
inductive VerifyError where
  | sigError (message : List Char)
  | rangeError
deriving DecidableEq, Repr

/-- `verifyWebhookSignature`.  `hmac` models HMAC-SHA256, `jsonParse` models
`JSON.parse` (returning `none` when it would throw), `now` models
`Math.floor(Date.now() / 1000)`; `tolerance` is the optional option field,
defaulting to 300. -/
def verifyWebhookSignature {α : Type} (hmac : List Char → List Char → List Char)
    (jsonParse : List Char → Option α) (now : Int)
    (payload signature secret : List Char) (tolerance : Option Int) :
    Except VerifyError α :=
  let tol := tolerance.getD 300
  match parseSignatureHeader signature with
  | .error m => .error (.sigError m)
  | .ok p =>
    if tol < ((now - p.timestamp).natAbs : Int) then
      .error (.sigError ("Webhook timestamp outside tolerance window".toList))
    else
      let computedSig := computeSignature hmac p.timestamp payload secret
      let sigBuffer := hexToBytes p.signature
      let computedBuffer := hexToBytes computedSig
      if sigBuffer.length ≠ computedBuffer.length then
        .error (.sigError ("Invalid signature".toList))
      else
        match timingSafeEqual sigBuffer computedBuffer with
        | .error _ => .error .rangeError
        | .ok eq =>
          if eq then
            match jsonParse payload with
            | some ev => .ok ev
            | none => .error (.sigError ("Invalid webhook payload".toList))
          else .error (.sigError ("Invalid signature".toList))

/-! ## Transport Engine (`src/utils/http.ts`) -/

/-- `Required<RetryConfig>`: the retry policy after merging with defaults. -/
structure RetryConfigR where
  maxAttempts : Nat
  initialDelayMs : ℚ
  maxDelayMs : ℚ
  maxJitterMs : ℚ
  retryableStatuses : List Int
deriving DecidableEq, Repr

/-- `DEFAULT_RETRY_CONFIG` from the source. -/
def DEFAULT_RETRY_CONFIG : RetryConfigR :=
  ⟨5, 1000, 30000, 1000, [429, 503, 504]⟩

/-- User-supplied `RetryConfig` (all fields optional). -/
structure RetryConfigUser where
  maxAttempts : Option Nat
  initialDelayMs : Option ℚ
  maxDelayMs : Option ℚ
  maxJitterMs : Option ℚ
  retryableStatuses : Option (List Int)
deriving DecidableEq, Repr

/-- The `retry` field of `HttpClientConfig`: absent, `false`, or a config. -/
inductive RetrySetting where
  | unset
  | disabled
  | custom (c : RetryConfigUser)
deriving DecidableEq, Repr

/-- The object spread `{ ...DEFAULT_RETRY_CONFIG, ...config.retry }`. -/
def mergeRetry (c : RetryConfigUser) : RetryConfigR :=
  ⟨c.maxAttempts.getD DEFAULT_RETRY_CONFIG.maxAttempts,
   c.initialDelayMs.getD DEFAULT_RETRY_CONFIG.initialDelayMs,
   c.maxDelayMs.getD DEFAULT_RETRY_CONFIG.maxDelayMs,
   c.maxJitterMs.getD DEFAULT_RETRY_CONFIG.maxJitterMs,
   c.retryableStatuses.getD DEFAULT_RETRY_CONFIG.retryableStatuses⟩

/-- The `HttpClient` constructor's retry setup: `null` when retry is the
literal `false`, otherwise the merge with the defaults. -/
def httpClientRetryConfig : RetrySetting → Option RetryConfigR
  | .disabled => none
  | .unset => some DEFAULT_RETRY_CONFIG
  | .custom c => some (mergeRetry c)

/-- `calculateDelay(attempt, retryAfterMs?)`.  `rand` models the
`Math.random()` draw, so the jitter is `rand * maxJitterMs`. -/
def calculateDelay (rc : Option RetryConfigR) (attempt : Nat)
    (retryAfterMs : Option ℚ) (rand : ℚ) : ℚ :=
  match rc with
  | none => 0
  | some c =>
    match retryAfterMs with
    | some ra => min (ra + rand * c.maxJitterMs) c.maxDelayMs
    | none => min (c.initialDelayMs * 2 ^ attempt + rand * c.maxJitterMs) c.maxDelayMs

/-- `parseRetryAfter(retryAfter)`.  `dateParseMs` models
`new Date(s).getTime()` (`none` for an invalid date) and `nowMs` models
`Date.now()`; the header value is `none` for a `null` header, and the
empty string is falsy like `null`. -/
def parseRetryAfter (dateParseMs : List Char → Option ℚ) (nowMs : ℚ)
    (retryAfter : Option (List Char)) : Option ℚ :=
  match retryAfter with
  | none => none
  | some s =>
    if s = [] then none
    else
      match jsParseIntL s with
      | some seconds => some ((seconds : ℚ) * 1000)
      | none =>
        match dateParseMs s with
        | some t =>
          let delayMs := t - nowMs
          if delayMs > 0 then some delayMs else none
        | none => none

/-- `shouldRetry(statusCode)`. -/
def shouldRetry (rc : Option RetryConfigR) (statusCode : Int) : Bool :=
  match rc with
  | none => false
  | some c => c.retryableStatuses.contains statusCode

/-- The decoded JSON body of a response, restricted to the two fields the
engine reads (`message` and `error`); `none` models an absent or
non-string field. -/
structure JsonVal where
  message : Option (List Char)
  errCode : Option (List Char)
deriving DecidableEq, Repr

/-- `RynkoError`, the single error class thrown by the client. -/
structure RynkoError where
  message : List Char
  code : List Char
  statusCode : Int
deriving DecidableEq, Repr

/-- `fetch` `Response.ok`: status in the 2xx range. -/
def respOk (status : Int) : Bool := decide (200 ≤ status ∧ status ≤ 299)

/-- Error construction shared by lines 156 and 173 of the source:
`new RynkoError(error.message || `HTTP ${status}`, error.error || 'ApiError',
status)`. -/
def mkApiError (body : JsonVal) (status : Int) : RynkoError :=
  ⟨jsOrStr body.message ("HTTP ".toList ++ jsIntToChars status),
   jsOrStr body.errCode ("ApiError".toList), status⟩

/-- The defensive fallback error thrown after the attempt loop. -/
def retryExhaustedError : RynkoError :=
  ⟨"Request failed after retries".toList, "RetryExhausted".toList, 0⟩

/-- `const data = await response.json().catch(() => ({}))` (line 154). -/
def jsonOrEmpty (j : Except (List Char) JsonVal) : JsonVal :=
  match j with
  | .ok b => b
  | .error _ => ⟨none, none⟩

/-- What one `fetch` attempt can produce.  `json` models
`await response.json()`, with `.error` carrying the thrown parse error's
message; `retryAfterMs` models `parseRetryAfter` applied to the response's
`Retry-After` header (that composition is verified separately through
`parseRetryAfter` itself). -/
structure MockResponse where
  status : Int
  retryAfterMs : Option ℚ
  json : Except (List Char) JsonVal
deriving DecidableEq, Repr

/-- Outcome of awaiting `fetch` for one attempt. -/
inductive FetchOutcome where
  | resp (r : MockResponse)
  | abortError
  | errorThrow (message : List Char)
  | nonErrorThrow
deriving DecidableEq, Repr

/-- Observable result of one logical `HttpClient.request` call: the value
returned or error thrown, how many attempts were issued, the sleeps
performed between attempts, and whether the defensive fallback at the end
of the loop produced the error. -/
structure LoopRes where
  result : Except RynkoError JsonVal
  attempts : Nat
  sleeps : List ℚ
  usedFallback : Bool
deriving DecidableEq, Repr

/-- A loop iteration that returns or throws without continuing. -/
def finishOne (r : Except RynkoError JsonVal) : LoopRes := ⟨r, 1, [], false⟩

/-- A loop iteration that sleeps `delay` and continues into `rest`. -/
def retryStep (delay : ℚ) (rest : LoopRes) : LoopRes :=
  ⟨rest.result, rest.attempts + 1, delay :: rest.sleeps, rest.usedFallback⟩

/-- The attempt loop of `HttpClient.request` (lines 134-212), fuelled by the
number of remaining iterations; `env` gives each attempt's fetch outcome and
`rand` each attempt's `Math.random()` draw.  `response.json()` is modelled
as a pure value that can be read more than once.  When the fuel runs out the
code past the loop runs: throw `lastError` if one was recorded, else the
defensive `RetryExhausted` error. -/
def runLoop (rc : Option RetryConfigR) (maxAtt : Nat) (env : Nat → FetchOutcome)
    (rand : Nat → ℚ) : Nat → Nat → Option RynkoError → LoopRes
  | 0, _, lastError =>
    match lastError with
    | some e => ⟨.error e, 0, [], false⟩
    | none => ⟨.error retryExhaustedError, 0, [], true⟩
  | fuel + 1, attempt, _lastError =>
    match env attempt with
    | .resp r =>
      if !respOk r.status && shouldRetry rc r.status then
        let delay := calculateDelay rc attempt r.retryAfterMs (rand attempt)
        let stored := mkApiError (jsonOrEmpty r.json) r.status
        if attempt < maxAtt - 1 then
          retryStep delay (runLoop rc maxAtt env rand fuel (attempt + 1) (some stored))
        else
          match r.json with
          | .error m => finishOne (.error ⟨m, "NetworkError".toList, 0⟩)
          | .ok data =>
            if !respOk r.status then
              let e := mkApiError data r.status
              if !shouldRetry rc r.status || decide (maxAtt - 1 ≤ attempt) then
                finishOne (.error e)
              else
                retryStep (calculateDelay rc attempt none (rand attempt))
                  (runLoop rc maxAtt env rand fuel (attempt + 1) (some e))
            else finishOne (.ok data)
      else
        match r.json with
        | .error m => finishOne (.error ⟨m, "NetworkError".toList, 0⟩)
        | .ok data =>
          if !respOk r.status then
            let e := mkApiError data r.status
            if !shouldRetry rc r.status || decide (maxAtt - 1 ≤ attempt) then
              finishOne (.error e)
            else
              retryStep (calculateDelay rc attempt none (rand attempt))
                (runLoop rc maxAtt env rand fuel (attempt + 1) (some e))
          else finishOne (.ok data)
    | .abortError =>
      finishOne (.error ⟨"Request timeout".toList, "TimeoutError".toList, 408⟩)
    | .errorThrow m => finishOne (.error ⟨m, "NetworkError".toList, 0⟩)
    | .nonErrorThrow =>
      finishOne (.error ⟨"Unknown error".toList, "UnknownError".toList, 0⟩)

/-- `this.retryConfig?.maxAttempts ?? 1` (line 131). -/
def maxAttOf (rc : Option RetryConfigR) : Nat :=
  match rc with
  | some c => c.maxAttempts
  | none => 1

/-- One logical `HttpClient.request` call. -/
def request (rc : Option RetryConfigR) (env : Nat → FetchOutcome)
    (rand : Nat → ℚ) : LoopRes :=
  runLoop rc (maxAttOf rc) env rand (maxAttOf rc) 0 none

/-! ## Client constructor (`src/index.ts`, `Rynko.constructor`) -/

/-- The fields of `RynkoConfig` relevant to construction; `none` models an
absent field. -/
structure RynkoConfig where
  apiKey : Option (List Char)
  baseUrl : Option (List Char)
  timeout : Option ℚ
deriving DecidableEq, Repr

/-- The configuration the constructed client hands to `HttpClient`. -/
structure ClientState where
  baseUrl : List Char
  apiKey : List Char
  timeout : ℚ
deriving DecidableEq, Repr

/-- `DEFAULT_BASE_URL` from the source. -/
def DEFAULT_BASE_URL : List Char := "https://api.rynko.dev".toList

/-- `DEFAULT_TIMEOUT` from the source. -/
def DEFAULT_TIMEOUT : ℚ := 30000

/-- JS truthiness of an optional string: `undefined` and `""` are falsy. -/
def jsFalsyStr (v : Option (List Char)) : Bool :=
  match v with
  | none => true
  | some s => s = []

/-- JS `value || fallback` on an optional number (`0` is falsy; `NaN` is
not representable in this model). -/
def jsOrNum (v : Option ℚ) (fallback : ℚ) : ℚ :=
  match v with
  | some x => if x = 0 then fallback else x
  | none => fallback

/-- The `Rynko` constructor: reject a falsy `apiKey`, otherwise coalesce
`baseUrl` and `timeout` on falsiness. -/
def rynkoConstructor (cfg : RynkoConfig) : Except (List Char) ClientState :=
  if jsFalsyStr cfg.apiKey then .error ("apiKey is required".toList)
  else
    .ok ⟨jsOrStr cfg.baseUrl DEFAULT_BASE_URL,
         cfg.apiKey.getD [],
         jsOrNum cfg.timeout DEFAULT_TIMEOUT⟩

/-! ## Theorems about the Signature Verifier -/

/-- The part of the header that wins for a given key: JS object assignment
in the parse loop means the last occurrence of a key overwrites earlier
ones. -/
def lastPartWithKey (parts : List (List Char)) (k : List Char) : Option (List Char) :=
  (parts.filter (fun p => keyOf p = k)).getLast?

theorem foldl_updateParsed_fst (parts : List (List Char))
    (acc : Option Int × Option (List Char)) :
    (parts.foldl updateParsed acc).1 =
      match lastPartWithKey parts ['t'] with
      | some p => (valueOf p).bind jsParseIntL
      | none => acc.1 := by
  induction parts using List.reverseRecOn generalizing acc with
  | nil => simp [lastPartWithKey]
  | append_singleton l p ih =>
    rw [List.foldl_append]
    by_cases hk : keyOf p = ['t']
    · simp [lastPartWithKey, List.filter_append, hk, updateParsed]
    · by_cases hk2 : keyOf p = ['v', '1'] <;>
        simpa [lastPartWithKey, List.filter_append, hk, hk2, updateParsed] using ih acc

theorem foldl_updateParsed_snd (parts : List (List Char))
    (acc : Option Int × Option (List Char)) :
    (parts.foldl updateParsed acc).2 =
      match lastPartWithKey parts ['v', '1'] with
      | some p => valueOf p
      | none => acc.2 := by
  induction parts using List.reverseRecOn generalizing acc with
  | nil => simp [lastPartWithKey]
  | append_singleton l p ih =>
    rw [List.foldl_append]
    by_cases hk : keyOf p = ['v', '1']
    · have hk1 : ¬ keyOf p = ['t'] := by
        intro h; rw [h] at hk; exact absurd hk (by decide)
      simp [lastPartWithKey, List.filter_append, hk, hk1, updateParsed]
    · by_cases hk2 : keyOf p = ['t'] <;>
        simpa [lastPartWithKey, List.filter_append, hk, hk2, updateParsed] using ih acc

/-- C2 (amended): `parseSignatureHeader` returns `{timestamp, signature}`
exactly when the last `t` part's value parses (via JS `parseInt`) to a
NONZERO integer and the last `v1` part carries a NONEMPTY value; unknown
keys are ignored and the error is thrown before any cryptographic work.
A `t` value of `0` is rejected, because the presence check tests JS
truthiness (`!parsed.timestamp`), not presence. -/
theorem parseSignatureHeader_ok_iff (header : List Char) (ts : Int) (sig : List Char) :
    parseSignatureHeader header = .ok ⟨ts, sig⟩ ↔
      ((lastPartWithKey (splitOnChar ',' header) ['t']).bind
          (fun p => (valueOf p).bind jsParseIntL) = some ts ∧ ts ≠ 0 ∧
        (lastPartWithKey (splitOnChar ',' header) ['v', '1']).bind valueOf = some sig ∧
        sig ≠ []) := by
  have hfst := foldl_updateParsed_fst (splitOnChar ',' header) (none, none)
  have hsnd := foldl_updateParsed_snd (splitOnChar ',' header) (none, none)
  unfold parseSignatureHeader
  rcases hA : lastPartWithKey (splitOnChar ',' header) ['t'] with _ | p
  · rw [hA] at hfst
    rcases h1 : (splitOnChar ',' header).foldl updateParsed (none, none) with ⟨t?, s?⟩
    rw [h1] at hfst hsnd
    simp only at hfst
    subst hfst
    simp [h1, hA]
  · rw [hA] at hfst
    rcases hB : lastPartWithKey (splitOnChar ',' header) ['v', '1'] with _ | q
    · rw [hB] at hsnd
      rcases h1 : (splitOnChar ',' header).foldl updateParsed (none, none) with ⟨t?, s?⟩
      rw [h1] at hfst hsnd
      simp only at hfst hsnd
      subst hsnd
      rcases t? with _ | t <;> simp [h1, hA, hB]
    · rw [hB] at hsnd
      rcases h1 : (splitOnChar ',' header).foldl updateParsed (none, none) with ⟨t?, s?⟩
      rw [h1] at hfst hsnd
      simp only at hfst hsnd
      subst hfst; subst hsnd
      rcases hv : (valueOf p).bind jsParseIntL with _ | t <;>
        rcases hw : valueOf q with _ | s
      · simp [h1, hA, hB, hv, hw]
      · simp [h1, hA, hB, hv, hw]
      · simp [h1, hA, hB, hv, hw]
      · simp only [h1, hA, hB, Option.some_bind, hv, hw]
        by_cases ht : t = 0
        · subst ht
          rw [if_neg (by simp)]
          constructor
          · intro h; exact Except.noConfusion h
          · rintro ⟨hts, hne, -⟩
            exact absurd (Option.some.inj hts).symm hne
        · by_cases hs : s = []
          · subst hs
            rw [if_neg (by rintro ⟨-, h⟩; exact h rfl)]
            constructor
            · intro h; exact Except.noConfusion h
            · rintro ⟨-, -, hsig, hne⟩
              exact absurd (Option.some.inj hsig).symm hne
          · rw [if_pos ⟨ht, hs⟩]
            constructor
            · intro h
              injection h with h2
              injection h2 with e1 e2
              subst e1; subst e2
              exact ⟨rfl, ht, rfl, hs⟩
            · rintro ⟨hts, -, hsig, -⟩
              obtain rfl := Option.some.inj hts
              obtain rfl := Option.some.inj hsig
              rfl

/-- C2 witness: a well-formed header is accepted with the parsed fields. -/
theorem parseSignatureHeader_ok_iff_witness :
    parseSignatureHeader ("t=1700000000,v1=abcd".toList) =
      .ok ⟨1700000000, "abcd".toList⟩ :=
  (parseSignatureHeader_ok_iff ("t=1700000000,v1=abcd".toList) 1700000000
    ("abcd".toList)).mpr ⟨by decide, by decide, by decide, by decide⟩

/-- C2 counterexample: a header whose `t` value parses to the integer `0`
with a `v1` value present is REJECTED, contrary to the claim. -/
theorem parseSignatureHeader_t_zero_rejected :
    parseSignatureHeader ("t=0,v1=abcd".toList) =
      .error ("Invalid signature header format".toList) := by decide

theorem parseSignatureHeader_error_msg (header m : List Char)
    (h : parseSignatureHeader header = .error m) :
    m = "Invalid signature header format".toList := by
  unfold parseSignatureHeader at h
  dsimp only at h
  split at h
  · split at h
    · exact Except.noConfusion h
    · exact (Except.error.inj h).symm
  · exact (Except.error.inj h).symm

/-- C6: with the tolerance defaulting to 300, a timestamp outside the
tolerance window is rejected with the tolerance message for EVERY possible
HMAC and JSON-parse behaviour — i.e. before the expected signature is
computed or compared, and even if the supplied signature is otherwise
valid. -/
theorem verifyWebhook_tolerance_first {α : Type}
    (hmac : List Char → List Char → List Char) (jsonParse : List Char → Option α)
    (now : Int) (payload signature secret : List Char) (tolerance : Option Int)
    (p : ParsedSig) (hp : parseSignatureHeader signature = .ok p)
    (ht : tolerance.getD 300 < ((now - p.timestamp).natAbs : Int)) :
    verifyWebhookSignature hmac jsonParse now payload signature secret tolerance =
      .error (.sigError ("Webhook timestamp outside tolerance window".toList)) := by
  unfold verifyWebhookSignature
  rw [hp]
  simp only
  rw [if_pos ht]

/-- C6 witness: a timestamp 400 seconds in the past with the default
tolerance is rejected with the tolerance message. -/
theorem verifyWebhook_tolerance_first_witness :
    verifyWebhookSignature (fun _ _ => []) (fun _ => some ()) 1700000400
      ("{}".toList) ("t=1700000000,v1=abcd".toList) ("sec".toList) none =
      .error (.sigError ("Webhook timestamp outside tolerance window".toList)) :=
  verifyWebhook_tolerance_first (fun _ _ => []) (fun _ => some ()) 1700000400
    ("{}".toList) ("t=1700000000,v1=abcd".toList) ("sec".toList) none
    ⟨1700000000, "abcd".toList⟩ (by decide) (by decide)

/-- C7: every rejection of `verifyWebhookSignature` is a
`WebhookSignatureError` carrying one of the four messages (bad header
format, tolerance, invalid signature — shared by the length and byte
mismatch checks — and invalid payload); in particular `timingSafeEqual`
is never invoked on buffers of unequal length, so its `RangeError` can
never escape. -/
theorem verifyWebhook_error_kinds {α : Type}
    (hmac : List Char → List Char → List Char) (jsonParse : List Char → Option α)
    (now : Int) (payload signature secret : List Char) (tolerance : Option Int)
    (e : VerifyError)
    (h : verifyWebhookSignature hmac jsonParse now payload signature secret tolerance =
      .error e) :
    ∃ m, e = .sigError m ∧
      (m = "Invalid signature header format".toList ∨
       m = "Webhook timestamp outside tolerance window".toList ∨
       m = "Invalid signature".toList ∨
       m = "Invalid webhook payload".toList) := by
  unfold verifyWebhookSignature at h
  split at h
  next m hp =>
    obtain rfl := (Except.error.inj h).symm
    exact ⟨m, rfl, Or.inl (parseSignatureHeader_error_msg _ _ hp)⟩
  next p hp =>
    dsimp only at h
    split at h
    · obtain rfl := (Except.error.inj h).symm
      exact ⟨_, rfl, Or.inr (Or.inl rfl)⟩
    · split at h
      · obtain rfl := (Except.error.inj h).symm
        exact ⟨_, rfl, Or.inr (Or.inr (Or.inl rfl))⟩
      · next hlen =>
        split at h
        next u heq =>
          unfold timingSafeEqual at heq
          rw [if_pos (not_ne_iff.mp hlen)] at heq
          exact Except.noConfusion heq
        next b heq =>
          split at h
          · split at h
            · exact Except.noConfusion h
            · obtain rfl := (Except.error.inj h).symm
              exact ⟨_, rfl, Or.inr (Or.inr (Or.inr rfl))⟩
          · obtain rfl := (Except.error.inj h).symm
            exact ⟨_, rfl, Or.inr (Or.inr (Or.inl rfl))⟩

/-- C7 witness: a malformed header is rejected with the header-format
message, wrapped in the single webhook error kind. -/
theorem verifyWebhook_error_kinds_witness :
    ∃ m, VerifyError.sigError ("Invalid signature header format".toList) =
        .sigError m ∧
      (m = "Invalid signature header format".toList ∨
       m = "Webhook timestamp outside tolerance window".toList ∨
       m = "Invalid signature".toList ∨
       m = "Invalid webhook payload".toList) :=
  verifyWebhook_error_kinds (fun _ _ => []) (fun _ => some ()) 0
    ("{}".toList) ("garbage".toList) ("sec".toList) none
    (.sigError ("Invalid signature header format".toList)) (by decide)

/-! ## Decimal rendering round-trips through `parseInt` -/

theorem natToRevDigitsGo_irrel (fuel1 : Nat) :
    ∀ fuel2 n, n ≤ fuel1 → n ≤ fuel2 →
      natToRevDigitsGo fuel1 n = natToRevDigitsGo fuel2 n := by
  induction fuel1 with
  | zero =>
    intro fuel2 n h1 _
    have hn : n = 0 := by omega
    subst hn
    cases fuel2 <;> simp [natToRevDigitsGo]
  | succ f ih =>
    intro fuel2 n h1 h2
    cases fuel2 with
    | zero =>
      have hn : n = 0 := by omega
      subst hn
      simp [natToRevDigitsGo]
    | succ f2 =>
      simp only [natToRevDigitsGo]
      by_cases h : n < 10
      · rw [if_pos h, if_pos h]
      · rw [if_neg h, if_neg h]
        congr 1
        exact ih f2 (n / 10) (by omega) (by omega)

theorem natToRevDigits_eq (n : Nat) :
    natToRevDigits n = if n < 10 then [Nat.digitChar n]
      else Nat.digitChar (n % 10) :: natToRevDigits (n / 10) := by
  unfold natToRevDigits
  cases hn : n with
  | zero => simp [natToRevDigitsGo]
  | succ m =>
    simp only [natToRevDigitsGo]
    by_cases h : m + 1 < 10
    · rw [if_pos h, if_pos h]
    · rw [if_neg h, if_neg h]
      congr 1
      exact natToRevDigitsGo_irrel m ((m + 1) / 10) ((m + 1) / 10) (by omega) (by omega)

theorem digitChar_props (d : Nat) (hd : d < 10) :
    digitVal? (Nat.digitChar d) = some d ∧
    isJsWhitespace (Nat.digitChar d) = false ∧
    Nat.digitChar d ≠ '-' ∧ Nat.digitChar d ≠ '+' ∧
    Nat.digitChar d ≠ ',' ∧ Nat.digitChar d ≠ '=' := by
  interval_cases d <;> refine ⟨by decide, by decide, by decide, by decide, by decide, by decide⟩

theorem mem_natToRevDigits (n : Nat) :
    ∀ c ∈ natToRevDigits n, ∃ d, d < 10 ∧ c = Nat.digitChar d := by
  induction n using Nat.strong_induction_on with
  | _ n ih =>
    intro c hc
    rw [natToRevDigits_eq] at hc
    by_cases h : n < 10
    · rw [if_pos h] at hc
      obtain rfl := List.mem_singleton.mp hc
      exact ⟨n, h, rfl⟩
    · rw [if_neg h] at hc
      rcases List.mem_cons.mp hc with rfl | hc2
      · exact ⟨n % 10, Nat.mod_lt _ (by omega), rfl⟩
      · exact ih (n / 10) (Nat.div_lt_self (by omega) (by omega)) c hc2

theorem mem_natToChars (n : Nat) :
    ∀ c ∈ natToChars n, ∃ d, d < 10 ∧ c = Nat.digitChar d := by
  intro c hc
  exact mem_natToRevDigits n c (List.mem_reverse.mp hc)

theorem natToChars_all_digits (n : Nat) :
    ∀ c ∈ natToChars n, (digitVal? c).isSome := by
  intro c hc
  obtain ⟨d, hd, rfl⟩ := mem_natToChars n c hc
  rw [(digitChar_props d hd).1]
  rfl

theorem natToChars_ne_nil (n : Nat) : natToChars n ≠ [] := by
  unfold natToChars
  rw [natToRevDigits_eq]
  by_cases h : n < 10
  · rw [if_pos h]; simp
  · rw [if_neg h]; simp

theorem digitsLoop_append (a b : List Char) (acc : Nat)
    (ha : ∀ c ∈ a, (digitVal? c).isSome) :
    digitsLoop acc (a ++ b) = digitsLoop (digitsLoop acc a) b := by
  induction a generalizing acc with
  | nil => rfl
  | cons c cs ih =>
    have hc := ha c (List.mem_cons_self c cs)
    rcases hd : digitVal? c with _ | d
    · rw [hd] at hc; exact absurd hc (by simp)
    · simp only [List.cons_append, digitsLoop, hd]
      exact ih _ (fun x hx => ha x (List.mem_cons_of_mem _ hx))

theorem jsParseIntCore_snoc (a : List Char) (c : Char) (v d : Nat)
    (ha : ∀ x ∈ a, (digitVal? x).isSome)
    (hv : jsParseIntCore a = some v) (hd : digitVal? c = some d) :
    jsParseIntCore (a ++ [c]) = some (v * 10 + d) := by
  rcases a with _ | ⟨x, xs⟩
  · exact absurd hv (by simp [jsParseIntCore])
  · rcases hx : digitVal? x with _ | dx
    · simp [jsParseIntCore, hx] at hv
    · simp only [jsParseIntCore, hx] at hv
      obtain rfl := Option.some.inj hv
      simp only [List.cons_append, jsParseIntCore, hx]
      congr 1
      rw [digitsLoop_append xs [c] dx (fun y hy => ha y (List.mem_cons_of_mem _ hy))]
      simp [digitsLoop, hd]

theorem jsParseIntCore_natToChars (n : Nat) : jsParseIntCore (natToChars n) = some n := by
  induction n using Nat.strong_induction_on with
  | _ n ih =>
    by_cases h : n < 10
    · have h1 : natToChars n = [Nat.digitChar n] := by
        unfold natToChars; rw [natToRevDigits_eq, if_pos h]; rfl
      rw [h1]
      simp [jsParseIntCore, (digitChar_props n h).1, digitsLoop]
    · have h1 : natToChars n = natToChars (n / 10) ++ [Nat.digitChar (n % 10)] := by
        unfold natToChars; rw [natToRevDigits_eq, if_neg h]; simp
      rw [h1]
      rw [jsParseIntCore_snoc _ _ (n / 10) (n % 10) (natToChars_all_digits _)
        (ih _ (Nat.div_lt_self (by omega) (by omega)))
        ((digitChar_props _ (Nat.mod_lt _ (by omega))).1)]
      congr 1
      omega

theorem jsParseIntL_natToChars (n : Nat) : jsParseIntL (natToChars n) = some (n : Int) := by
  rcases hsplit : natToChars n with _ | ⟨c, cs⟩
  · exact absurd hsplit (natToChars_ne_nil n)
  · obtain ⟨d, hd10, rfl⟩ := mem_natToChars n _ (hsplit ▸ List.mem_cons_self _ _)
    obtain ⟨-, hws, hminus, hplus, -, -⟩ := digitChar_props d hd10
    have hdrop : (Nat.digitChar d :: cs).dropWhile isJsWhitespace = Nat.digitChar d :: cs := by
      rw [List.dropWhile_cons, hws]
      simp
    unfold jsParseIntL
    rw [hdrop]
    dsimp only
    rw [if_neg hminus, if_neg hplus, ← hsplit, jsParseIntCore_natToChars n]
    rfl

theorem jsParseIntL_jsIntToChars (i : Int) : jsParseIntL (jsIntToChars i) = some i := by
  unfold jsIntToChars
  by_cases hneg : i < 0
  · rw [if_pos hneg]
    have hdrop : ('-' :: natToChars (-i).toNat).dropWhile isJsWhitespace =
        '-' :: natToChars (-i).toNat := by
      have hws2 : isJsWhitespace '-' = false := by decide
      rw [List.dropWhile_cons, hws2]
      simp
    unfold jsParseIntL
    rw [hdrop]
    dsimp only
    rw [if_pos rfl, jsParseIntCore_natToChars]
    simp
    omega
  · rw [if_neg hneg, jsParseIntL_natToChars]
    congr 1
    omega

theorem mem_jsIntToChars (i : Int) :
    ∀ c ∈ jsIntToChars i, c = '-' ∨ ∃ d, d < 10 ∧ c = Nat.digitChar d := by
  intro c hc
  unfold jsIntToChars at hc
  by_cases hneg : i < 0
  · rw [if_pos hneg] at hc
    rcases List.mem_cons.mp hc with rfl | hc2
    · exact Or.inl rfl
    · exact Or.inr (mem_natToChars _ c hc2)
  · rw [if_neg hneg] at hc
    exact Or.inr (mem_natToChars _ c hc)

theorem comma_not_mem_jsIntToChars (i : Int) : ',' ∉ jsIntToChars i := by
  intro h
  rcases mem_jsIntToChars i ',' h with h1 | ⟨d, hd, h2⟩
  · exact absurd h1 (by decide)
  · exact absurd h2.symm (digitChar_props d hd).2.2.2.2.1

theorem eq_not_mem_jsIntToChars (i : Int) : '=' ∉ jsIntToChars i := by
  intro h
  rcases mem_jsIntToChars i '=' h with h1 | ⟨d, hd, h2⟩
  · exact absurd h1 (by decide)
  · exact absurd h2.symm (digitChar_props d hd).2.2.2.2.2

/-! ## Round trip (C8) -/

theorem splitOnChar_not_mem (sep : Char) (a : List Char) (h : sep ∉ a) :
    splitOnChar sep a = [a] := by
  induction a with
  | nil => rfl
  | cons c cs ih =>
    have hc : ¬ c = sep := fun hh => h (hh ▸ List.mem_cons_self c cs)
    simp only [splitOnChar, if_neg hc, ih (fun hm => h (List.mem_cons_of_mem _ hm))]

theorem splitOnChar_append (sep : Char) (a b : List Char) (h : sep ∉ a) :
    splitOnChar sep (a ++ sep :: b) = a :: splitOnChar sep b := by
  induction a with
  | nil => simp [splitOnChar]
  | cons c cs ih =>
    have hc : ¬ c = sep := fun hh => h (hh ▸ List.mem_cons_self c cs)
    simp only [List.cons_append, splitOnChar, if_neg hc, List.append_eq,
      ih (fun hm => h (List.mem_cons_of_mem _ hm))]

/-- The header `t=<timestamp>,v1=<sig>` a webhook sender builds. -/
def mkSigHeader (ts : Int) (sig : List Char) : List Char :=
  't' :: '=' :: (jsIntToChars ts ++ ',' :: 'v' :: '1' :: '=' :: sig)

theorem parseSignatureHeader_mkSigHeader (ts : Int) (sig : List Char)
    (hts : ts ≠ 0) (hsig : sig ≠ []) (hc : ',' ∉ sig) (he : '=' ∉ sig) :
    parseSignatureHeader (mkSigHeader ts sig) = .ok ⟨ts, sig⟩ := by
  have hsplit : splitOnChar ',' (mkSigHeader ts sig) =
      [('t' :: '=' :: jsIntToChars ts), ('v' :: '1' :: '=' :: sig)] := by
    have h1 : ',' ∉ ('t' :: '=' :: jsIntToChars ts) := by
      intro hm
      rcases List.mem_cons.mp hm with h2 | hm
      · exact absurd h2 (by decide)
      · rcases List.mem_cons.mp hm with h2 | hm
        · exact absurd h2 (by decide)
        · exact comma_not_mem_jsIntToChars ts hm
    have h2 : ',' ∉ ('v' :: '1' :: '=' :: sig) := by
      intro hm
      rcases List.mem_cons.mp hm with h3 | hm
      · exact absurd h3 (by decide)
      · rcases List.mem_cons.mp hm with h3 | hm
        · exact absurd h3 (by decide)
        · rcases List.mem_cons.mp hm with h3 | hm
          · exact absurd h3 (by decide)
          · exact hc hm
    have := splitOnChar_append ',' ('t' :: '=' :: jsIntToChars ts)
      ('v' :: '1' :: '=' :: sig) h1
    rw [splitOnChar_not_mem ',' _ h2] at this
    exact this
  have hka : splitOnChar '=' ('t' :: '=' :: jsIntToChars ts) = [['t'], jsIntToChars ts] := by
    have := splitOnChar_append '=' ['t'] (jsIntToChars ts) (by decide)
    rw [splitOnChar_not_mem '=' _ (eq_not_mem_jsIntToChars ts)] at this
    exact this
  have hkb : splitOnChar '=' ('v' :: '1' :: '=' :: sig) = [['v', '1'], sig] := by
    have := splitOnChar_append '=' ['v', '1'] sig (by decide)
    rw [splitOnChar_not_mem '=' _ he] at this
    exact this
  have hkey1 : keyOf ('t' :: '=' :: jsIntToChars ts) = ['t'] := by
    unfold keyOf; rw [hka]; rfl
  have hval1 : valueOf ('t' :: '=' :: jsIntToChars ts) = some (jsIntToChars ts) := by
    unfold valueOf; rw [hka]; rfl
  have hkey2 : keyOf ('v' :: '1' :: '=' :: sig) = ['v', '1'] := by
    unfold keyOf; rw [hkb]; rfl
  have hval2 : valueOf ('v' :: '1' :: '=' :: sig) = some sig := by
    unfold valueOf; rw [hkb]; rfl
  have h1 : updateParsed (none, none) ('t' :: '=' :: jsIntToChars ts) = (some ts, none) := by
    unfold updateParsed
    rw [hkey1, if_pos rfl, hval1]
    simp only [Option.some_bind]
    rw [jsParseIntL_jsIntToChars]
  have h2 : updateParsed (some ts, none) ('v' :: '1' :: '=' :: sig) = (some ts, some sig) := by
    unfold updateParsed
    rw [hkey2, if_neg (by decide), if_pos rfl, hval2]
  have hstep : List.foldl updateParsed (none, none)
      [('t' :: '=' :: jsIntToChars ts), ('v' :: '1' :: '=' :: sig)] =
      (some ts, some sig) := by
    simp only [List.foldl, h1, h2]
  unfold parseSignatureHeader
  rw [hsplit]
  dsimp only
  rw [hstep]
  dsimp only
  rw [if_pos ⟨hts, hsig⟩]

/-- C8 (amended): the sign-then-verify round trip succeeds whenever the
timestamp equals "now", the timestamp is nonzero (a zero timestamp is
rejected by the header parser's JS truthiness check), the computed hex
signature is nonempty and contains neither `,` nor `=` (true of genuine
hex HMAC output), the tolerance is ≥ 0, and the payload parses as JSON;
the parsed event is returned. -/
theorem webhook_round_trip {α : Type} (hmac : List Char → List Char → List Char)
    (jsonParse : List Char → Option α) (now ts : Int) (payload secret : List Char)
    (tol : Int) (ev : α)
    (hnow : ts = now) (hts : ts ≠ 0) (htol : 0 ≤ tol)
    (hsig : computeSignature hmac ts payload secret ≠ [])
    (hc : ',' ∉ computeSignature hmac ts payload secret)
    (he : '=' ∉ computeSignature hmac ts payload secret)
    (hjson : jsonParse payload = some ev) :
    verifyWebhookSignature hmac jsonParse now payload
      (mkSigHeader ts (computeSignature hmac ts payload secret)) secret (some tol) =
      .ok ev := by
  subst hnow
  have hp := parseSignatureHeader_mkSigHeader ts _ hts hsig hc he
  unfold verifyWebhookSignature
  rw [hp]
  dsimp only
  rw [if_neg (by simp only [Option.getD_some, sub_self]; omega)]
  rw [if_neg (fun hh => hh rfl)]
  have htse : timingSafeEqual
      (hexToBytes (computeSignature hmac ts payload secret))
      (hexToBytes (computeSignature hmac ts payload secret)) = .ok true := by
    unfold timingSafeEqual
    rw [if_pos rfl]
    simp
  rw [htse]
  dsimp only
  rw [if_pos rfl, hjson]

/-- A stand-in for the HMAC-SHA256 host primitive in concrete inputs: a
fixed 64-character hex string (its value is irrelevant to the control flow
exercised). -/
def hexHmac : List Char → List Char → List Char := fun _ _ =>
  "0123456789abcdef0123456789abcdef0123456789abcdef0123456789abcdef".toList

/-- C8 witness: a concrete round trip at a nonzero timestamp succeeds. -/
theorem webhook_round_trip_witness :
    verifyWebhookSignature hexHmac (fun _ => some ()) 1700000000 ("{}".toList)
      (mkSigHeader 1700000000
        (computeSignature hexHmac 1700000000 ("{}".toList) ("sec".toList)))
      ("sec".toList) (some 300) = .ok () :=
  webhook_round_trip hexHmac (fun _ => some ()) 1700000000 1700000000
    ("{}".toList) ("sec".toList) 300 () rfl (by decide) (by decide)
    (by decide) (by decide) (by decide) rfl

/-- C8 counterexample: with timestamp = now = 0 the claimed round trip
fails — the header `t=0,v1=<sig>` is rejected by the parser's truthiness
check before any comparison, although the signature is the honestly
computed one and the payload parses. -/
theorem webhook_round_trip_zero_fails :
    verifyWebhookSignature hexHmac (fun _ => some ()) 0 ("{}".toList)
      (mkSigHeader 0 (computeSignature hexHmac 0 ("{}".toList) ("sec".toList)))
      ("sec".toList) (some 300) =
      .error (.sigError ("Invalid signature header format".toList)) := by decide

/-! ## Theorems about delay computation (C3, C4) -/

/-- C3 (amended): the delay computation prefers `Retry-After`, read first
as a count of seconds (milliseconds = seconds * 1000); only when the value
is not an integer is it parsed as an HTTP-date, used as `date - now` when
strictly positive; a date in the past (or exactly now) makes
`parseRetryAfter` return nothing, and the delay computation then falls
back to exponential backoff — not to a base delay of 0. -/
theorem parseRetryAfter_spec (dateParseMs : List Char → Option ℚ) (nowMs : ℚ)
    (s : List Char) (n : Int) (t : ℚ) (c : RetryConfigR) (attempt : Nat) (rand : ℚ) :
    (jsParseIntL s = some n →
      parseRetryAfter dateParseMs nowMs (some s) = some ((n : ℚ) * 1000)) ∧
    (s ≠ [] → jsParseIntL s = none → dateParseMs s = some t → t - nowMs > 0 →
      parseRetryAfter dateParseMs nowMs (some s) = some (t - nowMs)) ∧
    (jsParseIntL s = none → dateParseMs s = some t → t - nowMs ≤ 0 →
      parseRetryAfter dateParseMs nowMs (some s) = none) ∧
    (calculateDelay (some c) attempt none rand =
      min (c.initialDelayMs * 2 ^ attempt + rand * c.maxJitterMs) c.maxDelayMs) := by
  refine ⟨?_, ?_, ?_, rfl⟩
  · intro hn
    have hne : ¬ s = [] := by
      rintro rfl
      rw [show jsParseIntL [] = none from rfl] at hn
      exact Option.noConfusion hn
    unfold parseRetryAfter
    dsimp only
    rw [if_neg hne, hn]
  · intro hne hnone hdate hpos
    unfold parseRetryAfter
    dsimp only
    rw [if_neg hne, hnone, hdate]
    dsimp only
    rw [if_pos hpos]
  · intro hnone hdate hle
    unfold parseRetryAfter
    dsimp only
    by_cases hne : s = []
    · rw [if_pos hne]
    · rw [if_neg hne, hnone, hdate]
      dsimp only
      rw [if_neg (not_lt.mpr hle)]

/-- C3 witness: concrete instances of the three behaviours (seconds
preferred; future date used; past date ignored). -/
theorem parseRetryAfter_spec_witness :
    parseRetryAfter (fun _ => some 2500) 2000 (some ("7".toList)) = some 7000 ∧
    parseRetryAfter (fun _ => some 2500) 2000 (some ("X".toList)) = some 500 ∧
    parseRetryAfter (fun _ => some 1500) 2000 (some ("X".toList)) = none := by
  refine ⟨?_, ?_, ?_⟩
  · have h := (parseRetryAfter_spec (fun _ => some 2500) 2000 ("7".toList) 7 2500
      DEFAULT_RETRY_CONFIG 0 0).1 (by decide)
    rw [h]; norm_num
  · have h := (parseRetryAfter_spec (fun _ => some 2500) 2000 ("X".toList) 0 2500
      DEFAULT_RETRY_CONFIG 0 0).2.1 (by decide) (by decide) rfl (by norm_num)
    rw [h]; norm_num
  · exact (parseRetryAfter_spec (fun _ => some 1500) 2000 ("X".toList) 0 1500
      DEFAULT_RETRY_CONFIG 0 0).2.2.1 (by decide) rfl (by norm_num)

/-- C3 counterexample: an HTTP-date in the past makes `parseRetryAfter`
return nothing, and the delay computation at attempt 0 with a zero jitter
draw is then the exponential 1000ms, not the claimed base of 0 plus
jitter. -/
theorem retryAfter_past_date_falls_back :
    parseRetryAfter (fun _ => some 978307200000) 1700000000000
        (some ("Mon, 01 Jan 2001 00:00:00 GMT".toList)) = none ∧
    calculateDelay (some DEFAULT_RETRY_CONFIG) 0 none 0 = 1000 ∧
    calculateDelay (some DEFAULT_RETRY_CONFIG) 0 none 0 ≠
      0 + 0 * DEFAULT_RETRY_CONFIG.maxJitterMs := by
  refine ⟨?_, ?_, ?_⟩
  · unfold parseRetryAfter
    dsimp only
    rw [if_neg (by decide : ¬ ("Mon, 01 Jan 2001 00:00:00 GMT".toList : List Char) = []),
      show jsParseIntL ("Mon, 01 Jan 2001 00:00:00 GMT".toList) = none from by decide]
    dsimp only
    rw [if_neg (by norm_num)]
  · show min ((1000 : ℚ) * 2 ^ 0 + 0 * 1000) 30000 = 1000
    norm_num
  · show min ((1000 : ℚ) * 2 ^ 0 + 0 * 1000) 30000 ≠ 0 + 0 * 1000
    norm_num

/-- C4: the computed delay is always capped at `maxDelay`; the header value
`2` parses to a 2000ms base, whose delay is `min(2000 + jitter, maxDelay)`
and lies in `[2000, 2000 + maxJitter]` whenever the cap allows; without
`Retry-After` the delay is `min(initialDelay * 2^attempt + jitter,
maxDelay)`. -/
theorem calculateDelay_bounds (c : RetryConfigR) (attempt : Nat)
    (ra : Option ℚ) (rand : ℚ)
    (h0 : 0 ≤ rand) (h1 : rand < 1) (hj : 0 ≤ c.maxJitterMs) :
    calculateDelay (some c) attempt ra rand ≤ c.maxDelayMs ∧
    (∀ dateParseMs nowMs, parseRetryAfter dateParseMs nowMs (some ['2']) = some 2000) ∧
    calculateDelay (some c) attempt (some 2000) rand =
      min (2000 + rand * c.maxJitterMs) c.maxDelayMs ∧
    (2000 + rand * c.maxJitterMs ≤ c.maxDelayMs →
      2000 ≤ calculateDelay (some c) attempt (some 2000) rand ∧
      calculateDelay (some c) attempt (some 2000) rand ≤ 2000 + c.maxJitterMs) ∧
    calculateDelay (some c) attempt none rand =
      min (c.initialDelayMs * 2 ^ attempt + rand * c.maxJitterMs) c.maxDelayMs := by
  refine ⟨?_, ?_, rfl, ?_, rfl⟩
  · rcases ra with _ | r
    · exact min_le_right _ _
    · exact min_le_right _ _
  · intro dp now
    unfold parseRetryAfter
    dsimp only
    rw [if_neg (by decide : ¬ (['2'] : List Char) = []),
      show jsParseIntL ['2'] = some 2 from by decide]
    norm_num
  · intro hcap
    have hdel : calculateDelay (some c) attempt (some 2000) rand =
        2000 + rand * c.maxJitterMs := by
      show min (2000 + rand * c.maxJitterMs) c.maxDelayMs = _
      exact min_eq_left hcap
    rw [hdel]
    constructor
    · nlinarith
    · nlinarith

/-- C4 witness: with the default policy, attempt 0 and a zero jitter draw
the delay respects the cap. -/
theorem calculateDelay_bounds_witness :
    calculateDelay (some DEFAULT_RETRY_CONFIG) 0 none 0 ≤
      DEFAULT_RETRY_CONFIG.maxDelayMs :=
  (calculateDelay_bounds DEFAULT_RETRY_CONFIG 0 none 0 (by norm_num) (by norm_num)
    (by norm_num [DEFAULT_RETRY_CONFIG])).1

/-! ## Theorems about the attempt loop (C1, C5, C9) -/

/-- C1 (amended): only a response whose status is in the retryable set
triggers sleep-and-retry while attempts remain (the request body and
headers are built once, before the loop, so the retried attempt resends
them unchanged); a client-enforced timeout or a network failure is thrown
immediately after a single attempt — the loop never sleeps or retries for
them, no matter how many attempts remain. -/
theorem retry_only_on_retryable_status (rc : Option RetryConfigR) (maxAtt : Nat)
    (env : Nat → FetchOutcome) (rand : Nat → ℚ) (fuel attempt : Nat)
    (le : Option RynkoError) :
    (∀ r, env attempt = .resp r → respOk r.status = false →
      shouldRetry rc r.status = true → attempt < maxAtt - 1 →
      runLoop rc maxAtt env rand (fuel + 1) attempt le =
        retryStep (calculateDelay rc attempt r.retryAfterMs (rand attempt))
          (runLoop rc maxAtt env rand fuel (attempt + 1)
            (some (mkApiError (jsonOrEmpty r.json) r.status)))) ∧
    (env attempt = .abortError →
      runLoop rc maxAtt env rand (fuel + 1) attempt le =
        finishOne (.error ⟨"Request timeout".toList, "TimeoutError".toList, 408⟩)) ∧
    (∀ m, env attempt = .errorThrow m →
      runLoop rc maxAtt env rand (fuel + 1) attempt le =
        finishOne (.error ⟨m, "NetworkError".toList, 0⟩)) := by
  refine ⟨?_, ?_, ?_⟩
  · intro r hr hok hsr hlt
    simp only [runLoop, hr, hok, hsr, Bool.not_false, Bool.and_self, if_true, hlt,
      if_pos hlt]
  · intro hr
    simp only [runLoop, hr]
  · intro m hr
    simp only [runLoop, hr]

/-- An environment in which every attempt gets a bare 429 response. -/
def env429 : Nat → FetchOutcome := fun _ => .resp ⟨429, none, .ok ⟨none, none⟩⟩

/-- The zero jitter draw used by concrete loop runs. -/
def rand0 : Nat → ℚ := fun _ => 0

theorem retry_only_on_retryable_status_witness :
    runLoop (some DEFAULT_RETRY_CONFIG) 5 env429 rand0 5 0 none =
      retryStep (calculateDelay (some DEFAULT_RETRY_CONFIG) 0 none 0)
        (runLoop (some DEFAULT_RETRY_CONFIG) 5 env429 rand0 4 1
          (some (mkApiError ⟨none, none⟩ 429))) :=
  (retry_only_on_retryable_status (some DEFAULT_RETRY_CONFIG) 5 env429 rand0 4 0
    none).1 ⟨429, none, .ok ⟨none, none⟩⟩ rfl (by decide) (by decide) (by decide)

/-- C1 counterexample: with the default policy (5 attempts) a timeout on
the first attempt is thrown immediately — one attempt, no sleep, no retry —
even though attempts remain, contradicting the claim that timeouts and
network failures are retried. -/
theorem timeout_not_retried :
    request (some DEFAULT_RETRY_CONFIG) (fun _ => .abortError) rand0 =
      ⟨.error ⟨"Request timeout".toList, "TimeoutError".toList, 408⟩, 1, [], false⟩ ∧
    DEFAULT_RETRY_CONFIG.maxAttempts = 5 := by
  exact ⟨by decide, rfl⟩

theorem runLoop_last_attempt (rc : Option RetryConfigR) (maxAtt : Nat)
    (env : Nat → FetchOutcome) (rand : Nat → ℚ) (fuel attempt : Nat)
    (le : Option RynkoError) (h : maxAtt - 1 ≤ attempt) :
    ∃ r, runLoop rc maxAtt env rand (fuel + 1) attempt le = finishOne r := by
  simp only [runLoop]
  split
  · split
    · split
      · next hlt => exact absurd hlt (by omega)
      · split
        · exact ⟨_, rfl⟩
        · split
          · split
            · exact ⟨_, rfl⟩
            · next hcond => exact absurd (by simp [h]) hcond
          · exact ⟨_, rfl⟩
    · split
      · exact ⟨_, rfl⟩
      · split
        · split
          · exact ⟨_, rfl⟩
          · next hcond => exact absurd (by simp [h]) hcond
        · exact ⟨_, rfl⟩
  · exact ⟨_, rfl⟩
  · exact ⟨_, rfl⟩
  · exact ⟨_, rfl⟩

/-- C5: when `maxAttempts ?? 1` reads 1 — an explicit `maxAttempts = 1`
policy or retry disabled (`retryConfig = null`) — a request issues at most
one network attempt and never sleeps, regardless of the outcome. -/
theorem single_attempt_no_sleep (rc : Option RetryConfigR)
    (env : Nat → FetchOutcome) (rand : Nat → ℚ) (h1 : maxAttOf rc = 1) :
    (request rc env rand).attempts ≤ 1 ∧ (request rc env rand).sleeps = [] := by
  unfold request
  rw [h1]
  obtain ⟨r, hr⟩ := runLoop_last_attempt rc 1 env rand 0 0 none (by omega)
  have hr1 : runLoop rc 1 env rand 1 0 none = finishOne r := hr
  rw [hr1]
  exact ⟨le_refl 1, rfl⟩

/-- C5 witness: with retry explicitly disabled a retryable 429 response
still produces a single attempt and no sleep. -/
theorem single_attempt_no_sleep_witness :
    (request (httpClientRetryConfig .disabled) env429 rand0).attempts ≤ 1 ∧
    (request (httpClientRetryConfig .disabled) env429 rand0).sleeps = [] :=
  single_attempt_no_sleep (httpClientRetryConfig .disabled) env429 rand0 rfl

theorem runLoop_no_fallback (rc : Option RetryConfigR) (maxAtt : Nat)
    (env : Nat → FetchOutcome) (rand : Nat → ℚ) :
    ∀ fuel attempt le, (fuel = 0 → le ≠ none) →
      (runLoop rc maxAtt env rand fuel attempt le).usedFallback = false := by
  intro fuel
  induction fuel with
  | zero =>
    intro attempt le h
    rcases le with _ | e
    · exact absurd rfl (h rfl)
    · simp [runLoop]
  | succ f ih =>
    intro attempt le _h
    simp only [runLoop]
    split
    · split
      · split
        · simp only [retryStep]
          exact ih (attempt + 1) _ (fun _ => Option.some_ne_none _)
        · split
          · simp [finishOne]
          · split
            · split
              · simp [finishOne]
              · simp only [retryStep]
                exact ih (attempt + 1) _ (fun _ => Option.some_ne_none _)
            · simp [finishOne]
      · split
        · simp [finishOne]
        · split
          · split
            · simp [finishOne]
            · simp only [retryStep]
              exact ih (attempt + 1) _ (fun _ => Option.some_ne_none _)
          · simp [finishOne]
    · simp [finishOne]
    · simp [finishOne]
    · simp [finishOne]

/-- C9: with `maxAttempts ≥ 1` the defensive `RetryExhausted` fallback
after the attempt loop is unreachable — every loop iteration either
returns, throws, or records a concrete error before continuing, so
control never falls past the loop without a recorded error. -/
theorem retryExhausted_unreachable (rc : Option RetryConfigR)
    (env : Nat → FetchOutcome) (rand : Nat → ℚ) (h : 1 ≤ maxAttOf rc) :
    (request rc env rand).usedFallback = false := by
  unfold request
  exact runLoop_no_fallback rc (maxAttOf rc) env rand (maxAttOf rc) 0 none
    (fun h0 => absurd (h0 ▸ h) (by decide))

/-- C9 witness: the fallback is not used on a concrete all-timeout run with
the default policy. -/
theorem retryExhausted_unreachable_witness :
    (request (some DEFAULT_RETRY_CONFIG) (fun _ => .abortError) rand0).usedFallback =
      false :=
  retryExhausted_unreachable (some DEFAULT_RETRY_CONFIG) (fun _ => .abortError) rand0
    (by decide)

/-! ## Theorems about the client constructor (C10) -/

/-- C10: an empty-string `apiKey` is rejected exactly like a missing one;
a configured timeout of 0 (and an empty-string `baseUrl`) is silently
replaced by the default because the constructor coalesces on falsiness,
so a constructed client's timeout is never 0. -/
theorem constructor_coalesces (cfg : RynkoConfig) :
    ((cfg.apiKey = some [] ∨ cfg.apiKey = none) →
      rynkoConstructor cfg = .error ("apiKey is required".toList)) ∧
    (∀ st, rynkoConstructor cfg = .ok st →
      st.timeout ≠ 0 ∧
      (cfg.timeout = some 0 → st.timeout = DEFAULT_TIMEOUT) ∧
      (cfg.timeout = none → st.timeout = DEFAULT_TIMEOUT) ∧
      (cfg.baseUrl = some [] → st.baseUrl = DEFAULT_BASE_URL)) := by
  constructor
  · rintro (hk | hk) <;>
      (unfold rynkoConstructor; rw [if_pos (by simp [jsFalsyStr, hk])])
  · intro st hst
    unfold rynkoConstructor at hst
    split at hst
    · exact Except.noConfusion hst
    · obtain rfl := (Except.ok.inj hst).symm
      refine ⟨?_, ?_, ?_, ?_⟩
      · show jsOrNum cfg.timeout DEFAULT_TIMEOUT ≠ 0
        rcases hT : cfg.timeout with _ | x
        · norm_num [jsOrNum, DEFAULT_TIMEOUT]
        · by_cases hx : x = 0
          · simp only [jsOrNum, if_pos hx]
            norm_num [DEFAULT_TIMEOUT]
          · simpa only [jsOrNum, if_neg hx] using hx
      · intro ht
        show jsOrNum cfg.timeout DEFAULT_TIMEOUT = DEFAULT_TIMEOUT
        rw [ht]
        simp [jsOrNum]
      · intro ht
        show jsOrNum cfg.timeout DEFAULT_TIMEOUT = DEFAULT_TIMEOUT
        rw [ht]
        rfl
      · intro hb
        show jsOrStr cfg.baseUrl DEFAULT_BASE_URL = DEFAULT_BASE_URL
        rw [hb]
        simp [jsOrStr]

/-- C10 witness: the empty apiKey is rejected; a client built with
`timeout: 0` and `baseUrl: ""` gets the defaults, and its timeout is
nonzero. -/
theorem constructor_coalesces_witness :
    rynkoConstructor ⟨some [], none, none⟩ = .error ("apiKey is required".toList) ∧
    (⟨DEFAULT_BASE_URL, "k".toList, DEFAULT_TIMEOUT⟩ : ClientState).timeout ≠ 0 ∧
    (⟨DEFAULT_BASE_URL, "k".toList, DEFAULT_TIMEOUT⟩ : ClientState).timeout =
      DEFAULT_TIMEOUT := by
  have h2 := (constructor_coalesces ⟨some ("k".toList), some [], some 0⟩).2
    ⟨DEFAULT_BASE_URL, "k".toList, DEFAULT_TIMEOUT⟩ (by decide)
  exact ⟨(constructor_coalesces ⟨some [], none, none⟩).1 (Or.inl rfl),
    h2.1, h2.2.1 rfl⟩

end Rynko
